import Mathlib

/-!
Verification of the BPITS.TypeGuards validator-composition engine.

The development shallowly embeds the runtime logic of
`src/type-guard-builder.ts` and `src/type-guards/common-type-guards.ts`:
untyped JavaScript values become the inductive `JSValue`, the builder's
mutable registries become the explicit record `BuilderState`, and each
`console.warn` call becomes an element of an explicit diagnostic list.
Predicates registered by callers are modelled as total boolean functions
(`JSPred`); a second, `Except`-valued embedding (`evalGuardE`) records the
fact that the source calls predicates without any try/catch, so a predicate
that throws propagates its exception.
-/

/-- An already-materialised JavaScript value, as classified by the guards.
Numbers are modelled as integers (no claim involves floating point), and
object fields are kept as an ordered own-key/value list, matching the
enumeration order `Object.keys` exposes. -/
inductive JSValue where
  | vnull
  | vundefined
  | vbool (b : Bool)
  | vnum (n : Int)
  | vstr (s : String)
  | vobj (fields : List (String × JSValue))
  | varr (elems : List JSValue)

mutual

/-- Structural equality of modelled values.  JavaScript's `includes` uses
SameValueZero, which coincides with structural equality on the primitive
values (strings, numbers, booleans, null, undefined) that the library's
sentinel lists and enum values actually contain. -/
def JSValue.beq : JSValue → JSValue → Bool
  | .vnull, .vnull => true
  | .vundefined, .vundefined => true
  | .vbool a, .vbool b => a == b
  | .vnum a, .vnum b => a == b
  | .vstr a, .vstr b => a == b
  | .vobj f1, .vobj f2 => JSValue.beqFields f1 f2
  | .varr a1, .varr a2 => JSValue.beqElems a1 a2
  | _, _ => false

/-- Equality of own-entry lists, fieldwise. -/
def JSValue.beqFields : List (String × JSValue) → List (String × JSValue) → Bool
  | [], [] => true
  | (k1, v1) :: r1, (k2, v2) :: r2 => k1 == k2 && JSValue.beq v1 v2 && JSValue.beqFields r1 r2
  | _, _ => false

/-- Equality of element lists, elementwise. -/
def JSValue.beqElems : List JSValue → List JSValue → Bool
  | [], [] => true
  | x :: xs, y :: ys => JSValue.beq x y && JSValue.beqElems xs ys
  | _, _ => false

end

theorem JSValue.beq_iff_bounded :
    ∀ n : Nat,
      (∀ a : JSValue, sizeOf a ≤ n → ∀ b, (JSValue.beq a b = true ↔ a = b)) ∧
      (∀ f1 : List (String × JSValue), sizeOf f1 ≤ n →
        ∀ f2, (JSValue.beqFields f1 f2 = true ↔ f1 = f2)) ∧
      (∀ l1 : List JSValue, sizeOf l1 ≤ n →
        ∀ l2, (JSValue.beqElems l1 l2 = true ↔ l1 = l2)) := by
  intro n
  induction n with
  | zero =>
    refine ⟨fun a ha => ?_, fun f1 hf => ?_, fun l1 hl => ?_⟩
    · cases a <;> simp at ha
    · cases f1 <;> simp at hf
    · cases l1 <;> simp at hl
  | succ n ih =>
    obtain ⟨ih1, ih2, ih3⟩ := ih
    refine ⟨fun a ha b => ?_, fun f1 hf f2 => ?_, fun l1 hl l2 => ?_⟩
    · cases a with
      | vnull => cases b <;> simp [JSValue.beq]
      | vundefined => cases b <;> simp [JSValue.beq]
      | vbool x => cases b <;> simp [JSValue.beq]
      | vnum x => cases b <;> simp [JSValue.beq]
      | vstr x => cases b <;> simp [JSValue.beq]
      | vobj f1 =>
        simp at ha
        cases b <;> simp [JSValue.beq]
        exact ih2 f1 (by omega) _
      | varr l1 =>
        simp at ha
        cases b <;> simp [JSValue.beq]
        exact ih3 l1 (by omega) _
    · cases f1 with
      | nil => cases f2 <;> simp [JSValue.beqFields]
      | cons e r1 =>
        obtain ⟨k1, v1⟩ := e
        simp at hf
        cases f2 with
        | nil => simp [JSValue.beqFields]
        | cons e2 r2 =>
          obtain ⟨k2, v2⟩ := e2
          simp [JSValue.beqFields, ih1 v1 (by omega) v2, ih2 r1 (by omega) r2]
    · cases l1 with
      | nil => cases l2 <;> simp [JSValue.beqElems]
      | cons x xs =>
        simp at hl
        cases l2 with
        | nil => simp [JSValue.beqElems]
        | cons y ys =>
          simp [JSValue.beqElems, ih1 x (by omega) y, ih3 xs (by omega) ys]

theorem JSValue.beq_iff (a b : JSValue) : (JSValue.beq a b = true) ↔ a = b :=
  (JSValue.beq_iff_bounded (sizeOf a)).1 a (Nat.le_refl _) b

instance : BEq JSValue := ⟨JSValue.beq⟩

instance : LawfulBEq JSValue where
  eq_of_beq h := (JSValue.beq_iff _ _).mp h
  rfl := (JSValue.beq_iff _ _).mpr rfl

instance : DecidableEq JSValue := fun a b => decidable_of_iff _ (JSValue.beq_iff a b)

/-- JavaScript's `typeof` operator restricted to the modelled values:
`typeof null`, objects and arrays are all `"object"`. -/
def typeofJS : JSValue → String
  | .vnull => "object"
  | .vundefined => "undefined"
  | .vbool _ => "boolean"
  | .vnum _ => "number"
  | .vstr _ => "string"
  | .vobj _ => "object"
  | .varr _ => "object"

/-- JavaScript falsiness (`!obj`): null, undefined, false, 0 and "". -/
def jsFalsy : JSValue → Bool
  | .vnull => true
  | .vundefined => true
  | .vbool b => !b
  | .vnum n => n == 0
  | .vstr s => s == ""
  | .vobj _ => false
  | .varr _ => false

/-- The own enumerable entries of a value, in enumeration order:
`Object.keys(obj)` paired with `obj[key]`.  Arrays enumerate their index
strings, every non-object has no own keys. -/
def jsOwnEntries : JSValue → List (String × JSValue)
  | .vobj fields => fields
  | .varr elems => elems.enum.map (fun p => (toString p.1, p.2))
  | _ => []

/-- A registered type-guard predicate (`TypeGuardPredicate<T>` erased to its
runtime content): a total boolean classifier of arbitrary values. -/
abbrev JSPred : Type := JSValue → Bool

/-- `sanitiseValueReceived`: the logged value, or the fixed `'redacted'`
placeholder when `LogValueReceived` is off. -/
def sanitise (logValueReceived : Bool) (value : JSValue) : JSValue :=
  if logValueReceived then value else JSValue.vstr "redacted"

/-- One diagnostic message, abstracting the four distinct `console.warn`
call sites of the source. -/
inductive Diag where
  | rootFailure (typeName : String) (value : JSValue)
  | missingValidator (typeName : String) (key : String)
  | propFailure (typeName : String) (key : String) (value : JSValue)
  | arrayMemberFailure
deriving DecidableEq

/-- `Map.get`: the value stored for `k`, if any (keys are unique in a real
`Map`; lookup takes the first match). -/
def mapGet {α : Type} (m : List (String × α)) (k : String) : Option α :=
  match m.find? (fun e => e.1 == k) with
  | some e => some e.2
  | none => none

/-- `Map.set`: replace the entry for `k` in place, or append a new entry,
preserving insertion order exactly as a JavaScript `Map` does. -/
def mapSet {α : Type} (m : List (String × α)) (k : String) (v : α) : List (String × α) :=
  match m with
  | [] => [(k, v)]
  | e :: rest => if e.1 == k then (k, v) :: rest else e :: mapSet rest k v

/-- The mutable registries of a `TypeGuardBuilder<T>` instance:
`_rootTypeName`, `_rootValidators`, `_validators`,
`_suppressAllMissingValidatorWarnings` and
`_suppressedMissingValidatorWarningProperties`. -/
structure BuilderState where
  rootTypeName : String
  rootValidators : List JSPred
  validators : List (String × List JSPred)
  suppressAll : Bool
  suppressedProps : List String

namespace TypeGuardBuilder

/-- `TypeGuardBuilder.start(typeName)` / the constructor. -/
def start (typeName : String) : BuilderState :=
  ⟨typeName, [], [], false, []⟩

/-- `validateRoot(predicate)`: appends to `_rootValidators`. -/
def validateRoot (st : BuilderState) (predicate : JSPred) : BuilderState :=
  { st with rootValidators := st.rootValidators ++ [predicate] }

/-- `validateProperty(property, predicate)`: appends `predicate` to the
property's entry in `_validators`, creating the entry if absent. -/
def validateProperty (st : BuilderState) (property : String) (predicate : JSPred) : BuilderState :=
  { st with validators :=
      mapSet st.validators property (((mapGet st.validators property).getD []) ++ [predicate]) }

/-- `ignoreProperty(property)`: appends the constant-true predicate to the
property's entry, exactly as the source does inline. -/
def ignoreProperty (st : BuilderState) (property : String) : BuilderState :=
  { st with validators :=
      mapSet st.validators property (((mapGet st.validators property).getD []) ++ [fun _ => true]) }

/-- `suppressMissingValidatorWarnings(...properties)`: with no arguments it
sets the suppress-all flag, otherwise it adds the given names to the
suppression set. -/
def suppressMissingValidatorWarnings (st : BuilderState) (properties : List String) : BuilderState :=
  if properties.isEmpty then { st with suppressAll := true }
  else { st with suppressedProps := st.suppressedProps ++ properties }

/-- The `for (const key of objKeys)` loop of `buildTypeGuard`: walk the
observed entries in order; an unregistered key at most warns and is skipped,
a registered key whose predicate sequence does not all pass warns and stops
the whole evaluation with `false`. -/
def evalProps (lv : Bool) (tn : String) (validators : List (String × List JSPred))
    (hasRoot suppressAll : Bool) (suppressed : List String) :
    List (String × JSValue) → Bool × List Diag
  | [] => (true, [])
  | (key, value) :: rest =>
    match mapGet validators key with
    | none =>
      let ds := if !hasRoot && !suppressAll && !(suppressed.contains key)
        then [Diag.missingValidator tn key] else []
      let r := evalProps lv tn validators hasRoot suppressAll suppressed rest
      (r.1, ds ++ r.2)
    | some preds =>
      if preds.all (fun p => p value)
        then evalProps lv tn validators hasRoot suppressAll suppressed rest
        else (false, [Diag.propFailure tn key (sanitise lv value)])

/-- `buildTypeGuard` after the root validators have passed: run the key
loop, then apply the empty-object rule (`objKeys.length === 0 &&
!hasRootValidator && this._validators.size > 0`). -/
def evalGuardProps (lv : Bool) (st : BuilderState) (v : JSValue) : Bool × List Diag :=
  let hasRoot := !st.rootValidators.isEmpty
  let entries := jsOwnEntries v
  let r := evalProps lv st.rootTypeName st.validators hasRoot st.suppressAll st.suppressedProps entries
  if r.1 = false then (false, r.2)
  else if entries.isEmpty && !hasRoot && !(st.validators.isEmpty) then (false, r.2)
  else (true, r.2)

/-- `buildTypeGuard` after the `typeof`/truthiness checks: evaluate every
root validator (`every` short-circuits); a failure warns for the root and
returns `false`, otherwise continue with the key loop. -/
def evalGuardChecked (lv : Bool) (st : BuilderState) (v : JSValue) : Bool × List Diag :=
  if !(st.rootValidators.all (fun r => r v)) then
    (false, [Diag.rootFailure st.rootTypeName (sanitise lv v)])
  else evalGuardProps lv st v

/-- The guard produced by `buildTypeGuard()`, evaluated on `v` while the
builder's registries are in state `st`.  The source closure reads
`this._rootValidators` / `this._validators` afresh on every invocation, so
the state is a parameter of evaluation, not baked in at build time. -/
def buildTypeGuard (lv : Bool) (st : BuilderState) (v : JSValue) : Bool × List Diag :=
  if typeofJS v != "object" then (false, [])
  else if jsFalsy v then (false, [])
  else evalGuardChecked lv st v

end TypeGuardBuilder

namespace CommonTypeGuards

/-- `CommonTypeGuards.basics.nullish(obj, ...nullishValues)`: membership in
the given sentinel list, defaulting to `[null, undefined]` when the list is
empty. -/
def nullish (obj : JSValue) (nullishValues : List JSValue) : Bool :=
  let allowedNullish :=
    if nullishValues.isEmpty then [JSValue.vnull, JSValue.vundefined] else nullishValues
  allowedNullish.contains obj

/-- `makeNullableFunction(baseTypeGuard)(...nullishValues)`: on `null` or
`undefined` decide by the Nullish Classifier alone, otherwise fall back to
the base guard.  The `nullable` accessor attached by the builder's `build`
getter has the same body. -/
def makeNullableFunction (baseTypeGuard : JSPred) (nullishValues : List JSValue)
    (obj : JSValue) : Bool :=
  if obj == JSValue.vnull || obj == JSValue.vundefined then nullish obj nullishValues
  else baseTypeGuard obj

namespace basics

/-- `basics.string()`: the string tag check. -/
def string : JSPred := fun obj => typeofJS obj == "string"

/-- `basics.number()`: the number tag check. -/
def number : JSPred := fun obj => typeofJS obj == "number"

/-- `basics.boolean()`: the boolean tag check. -/
def boolean : JSPred := fun obj => typeofJS obj == "boolean"

/-- `basics.object()`: the bare `typeof obj === 'object'` tag check, which
accepts `null` and arrays. -/
def object : JSPred := fun obj => typeofJS obj == "object"

end basics

/-- `array.arrayOf(typeGuard)`: reject non-arrays silently; otherwise check
every element and, when some member fails, emit the single generic
`'Validation failed for member of array'` diagnostic (which carries no
index) and return `false`. -/
def arrayOf (typeGuard : JSPred) (obj : JSValue) : Bool × List Diag :=
  match obj with
  | .varr elems =>
    let membersValid := elems.all typeGuard
    (membersValid, if membersValid then [] else [Diag.arrayMemberFailure])
  | _ => (false, [])

namespace enums

/-- `enums.memberOf(enumObject)`: compute `Object.values(enumObject)` once
and test value membership. -/
def memberOf (enumObject : List (String × JSValue)) (obj : JSValue) : Bool :=
  (enumObject.map Prod.snd).contains obj

/-- Modelled from the spec: the implementation of `enums.keyOf` is not under
`src/` (only its unit tests are).  Per the spec, `enum-key-of(E)` "instead
checks membership against the set of declared key names": the input must be
one of the declared key-name strings. -/
def keyOf (enumObject : List (String × JSValue)) (obj : JSValue) : Bool :=
  match obj with
  | .vstr s => (enumObject.map Prod.fst).contains s
  | _ => false

end enums

end CommonTypeGuards

namespace TypeGuardBuilder

/-- All entries whose key has a registered predicate sequence satisfy every
predicate of that sequence (entries with unregistered keys impose nothing). -/
def propsPassB (validators : List (String × List JSPred))
    (entries : List (String × JSValue)) : Bool :=
  entries.all (fun e =>
    match mapGet validators e.1 with
    | none => true
    | some preds => preds.all (fun p => p e.2))

/-- The missing-validator diagnostics the key loop emits while walking
`entries`, one per observed key with no registered predicate sequence,
unless a root validator exists or the key is suppressed. -/
def missingDiags (tn : String) (validators : List (String × List JSPred))
    (hasRoot suppressAll : Bool) (suppressed : List String)
    (entries : List (String × JSValue)) : List Diag :=
  entries.filterMap (fun e =>
    match mapGet validators e.1 with
    | none =>
      if !hasRoot && !suppressAll && !(suppressed.contains e.1)
        then some (Diag.missingValidator tn e.1) else none
    | some _ => none)

end TypeGuardBuilder

theorem mapGet_cons {α : Type} (e : String × α) (m : List (String × α)) (k : String) :
    mapGet (e :: m) k = if e.1 == k then some e.2 else mapGet m k := by
  by_cases h : (e.1 == k) = true
  · simp [mapGet, List.find?, h]
  · simp only [Bool.not_eq_true] at h
    simp [mapGet, List.find?, h]

theorem mapGet_mapSet_ne {α : Type} (m : List (String × α)) (k k' : String) (v : α)
    (h : k' ≠ k) : mapGet (mapSet m k v) k' = mapGet m k' := by
  induction m with
  | nil =>
    simp only [mapSet, mapGet_cons]
    have : (k == k') = false := by simpa using fun hh => h hh.symm
    simp [mapGet, this]
  | cons e rest ih =>
    by_cases he : (e.1 == k) = true
    · simp only [mapSet, he, if_true, mapGet_cons]
      have hk : (k == k') = false := by simpa using fun hh => h hh.symm
      have he' : (e.1 == k') = false := by
        have : e.1 = k := by simpa using he
        simpa [this] using fun hh => h hh.symm
      simp [hk, he']
    · simp only [Bool.not_eq_true] at he
      simp only [mapSet, he, Bool.false_eq_true, if_false, mapGet_cons, ih]

namespace TypeGuardBuilder

theorem propsPassB_cons (V : List (String × List JSPred)) (k : String) (value : JSValue)
    (r : List (String × JSValue)) :
    propsPassB V ((k, value) :: r)
      = ((match mapGet V k with
          | none => true
          | some preds => preds.all (fun p => p value)) && propsPassB V r) := by
  simp [propsPassB]

theorem evalProps_append_pass (lv : Bool) (tn : String) (V : List (String × List JSPred))
    (hasRoot sAll : Bool) (supp : List String)
    (pre tail : List (String × JSValue)) (hpre : propsPassB V pre = true) :
    evalProps lv tn V hasRoot sAll supp (pre ++ tail)
      = ((evalProps lv tn V hasRoot sAll supp tail).1,
         missingDiags tn V hasRoot sAll supp pre
           ++ (evalProps lv tn V hasRoot sAll supp tail).2) := by
  induction pre with
  | nil => simp [missingDiags]
  | cons e r ihp =>
    obtain ⟨k, value⟩ := e
    rw [propsPassB_cons, Bool.and_eq_true] at hpre
    obtain ⟨hk, hr⟩ := hpre
    rw [List.cons_append]
    cases hGet : mapGet V k with
    | none =>
      simp only [evalProps, hGet, ihp hr, missingDiags, List.filterMap_cons]
      simp only [missingDiags] at *
      split <;> simp
    | some preds =>
      rw [hGet] at hk
      have hk' : preds.all (fun p => p value) = true := hk
      simp only [evalProps, hGet, hk', if_true, ihp hr, missingDiags, List.filterMap_cons]

theorem evalProps_all_pass (lv : Bool) (tn : String) (V : List (String × List JSPred))
    (hasRoot sAll : Bool) (supp : List String)
    (entries : List (String × JSValue)) (h : propsPassB V entries = true) :
    evalProps lv tn V hasRoot sAll supp entries
      = (true, missingDiags tn V hasRoot sAll supp entries) := by
  have := evalProps_append_pass lv tn V hasRoot sAll supp entries [] h
  simpa [evalProps] using this

theorem evalProps_fail_at (lv : Bool) (tn : String) (V : List (String × List JSPred))
    (hasRoot sAll : Bool) (supp : List String)
    (pre rest : List (String × JSValue)) (k1 : String) (x1 : JSValue)
    (ps1 : List JSPred)
    (hpre : propsPassB V pre = true)
    (h1 : mapGet V k1 = some ps1)
    (hfail : ps1.all (fun p => p x1) = false) :
    evalProps lv tn V hasRoot sAll supp (pre ++ (k1, x1) :: rest)
      = (false, missingDiags tn V hasRoot sAll supp pre
          ++ [Diag.propFailure tn k1 (sanitise lv x1)]) := by
  rw [evalProps_append_pass lv tn V hasRoot sAll supp pre _ hpre]
  simp [evalProps, h1, hfail]

theorem propsPassB_congr (V V' : List (String × List JSPred))
    (entries : List (String × JSValue))
    (h : ∀ e ∈ entries, mapGet V e.1 = mapGet V' e.1) :
    propsPassB V entries = propsPassB V' entries := by
  induction entries with
  | nil => rfl
  | cons e r ihp =>
    have hk := h e (List.mem_cons_self _ _)
    have hr := fun e' he' => h e' (List.mem_cons_of_mem _ he')
    obtain ⟨k, value⟩ := e
    rw [propsPassB_cons, propsPassB_cons, hk, ihp hr]

theorem missingDiags_congr (tn : String) (V V' : List (String × List JSPred))
    (hasRoot sAll : Bool) (supp : List String)
    (entries : List (String × JSValue))
    (h : ∀ e ∈ entries, mapGet V e.1 = mapGet V' e.1) :
    missingDiags tn V hasRoot sAll supp entries
      = missingDiags tn V' hasRoot sAll supp entries := by
  induction entries with
  | nil => rfl
  | cons e r ihp =>
    have hk := h e (List.mem_cons_self _ _)
    have hr := fun e' he' => h e' (List.mem_cons_of_mem _ he')
    simp only [missingDiags, List.filterMap_cons] at *
    rw [hk, ihp hr]

theorem evalGuardChecked_root_pass (lv : Bool) (st : BuilderState) (v : JSValue)
    (hroot : st.rootValidators.all (fun r => r v) = true) :
    evalGuardChecked lv st v = evalGuardProps lv st v := by
  simp [evalGuardChecked, hroot]

theorem buildTypeGuard_vobj (lv : Bool) (st : BuilderState)
    (fields : List (String × JSValue)) :
    buildTypeGuard lv st (JSValue.vobj fields) = evalGuardChecked lv st (JSValue.vobj fields) := rfl

end TypeGuardBuilder

/-- A predicate as JavaScript actually types it at runtime: a call may
return a boolean or throw.  `buildTypeGuard` contains no try/catch, so this
embedding makes exception propagation observable. -/
abbrev JSPredE : Type := JSValue → Except String Bool

/-- `BuilderState` with possibly-throwing registered predicates. -/
structure BuilderStateE where
  rootTypeName : String
  rootValidators : List JSPredE
  validators : List (String × List JSPredE)
  suppressAll : Bool
  suppressedProps : List String

namespace TypeGuardBuilder

/-- `Array.every(v => v(obj))` over possibly-throwing predicates:
short-circuits on the first `false`, propagates the first exception. -/
def allE (v : JSValue) : List JSPredE → Except String Bool
  | [] => .ok true
  | p :: rest => do
    let b ← p v
    if b then allE v rest else .ok false

/-- The key loop of `buildTypeGuard` over possibly-throwing predicates. -/
def evalPropsE (lv : Bool) (tn : String) (validators : List (String × List JSPredE))
    (hasRoot suppressAll : Bool) (suppressed : List String) :
    List (String × JSValue) → Except String (Bool × List Diag)
  | [] => .ok (true, [])
  | (key, value) :: rest =>
    match mapGet validators key with
    | none => do
      let ds := if !hasRoot && !suppressAll && !(suppressed.contains key)
        then [Diag.missingValidator tn key] else []
      let r ← evalPropsE lv tn validators hasRoot suppressAll suppressed rest
      .ok (r.1, ds ++ r.2)
    | some preds => do
      let ok ← allE value preds
      if ok then evalPropsE lv tn validators hasRoot suppressAll suppressed rest
      else .ok (false, [Diag.propFailure tn key (sanitise lv value)])

/-- `buildTypeGuard` over possibly-throwing predicates: the very same
structure as `buildTypeGuard`, with exceptions from predicate calls
propagated (there is no try/catch anywhere in the source function). -/
def buildTypeGuardE (lv : Bool) (st : BuilderStateE) (v : JSValue) :
    Except String (Bool × List Diag) :=
  if typeofJS v != "object" then .ok (false, [])
  else if jsFalsy v then .ok (false, [])
  else do
    let rootsOk ← allE v st.rootValidators
    if !rootsOk then .ok (false, [Diag.rootFailure st.rootTypeName (sanitise lv v)])
    else do
      let r ← evalPropsE lv st.rootTypeName st.validators (!st.rootValidators.isEmpty)
        st.suppressAll st.suppressedProps (jsOwnEntries v)
      if r.1 = false then .ok (false, r.2)
      else if (jsOwnEntries v).isEmpty && !(!st.rootValidators.isEmpty)
          && !(st.validators.isEmpty) then .ok (false, r.2)
      else .ok (true, r.2)

end TypeGuardBuilder

/-- A registered predicate that rejects every value. -/
def alwaysFalsePred : JSPred := fun _ => false

/-- A registered predicate that accepts every value (what `ignoreProperty`
registers). -/
def alwaysTruePred : JSPred := fun _ => true

/-- A registered predicate that throws on every call. -/
def throwingPredicate : JSPredE := fun _ => Except.error "predicate threw"

/-- A builder whose single property validator for `a` throws. -/
def c3ThrowState : BuilderStateE := ⟨"T", [], [("a", [throwingPredicate])], false, []⟩

/-- Recogniser for missing-validator diagnostics. -/
def isMissingValidatorDiag : Diag → Bool
  | .missingValidator _ _ => true
  | _ => false

/-- The string enum `{Red: 'red', Green: 'green'}` of the claim. -/
def colourEnum : List (String × JSValue) :=
  [("Red", JSValue.vstr "red"), ("Green", JSValue.vstr "green")]

namespace TypeGuardBuilder

theorem evalProps_congr (lv : Bool) (tn : String) (V V' : List (String × List JSPred))
    (hasRoot sAll : Bool) (supp : List String) (entries : List (String × JSValue))
    (h : ∀ e ∈ entries, mapGet V e.1 = mapGet V' e.1) :
    evalProps lv tn V hasRoot sAll supp entries
      = evalProps lv tn V' hasRoot sAll supp entries := by
  induction entries with
  | nil => rfl
  | cons e r ihp =>
    have hk := h e (List.mem_cons_self _ _)
    have hr := fun e' he' => h e' (List.mem_cons_of_mem _ he')
    obtain ⟨k, value⟩ := e
    cases hGet : mapGet V' k with
    | none => simp only [evalProps, hk, hGet, ihp hr]
    | some preds => simp only [evalProps, hk, hGet, ihp hr]

theorem evalGuardProps_eq_of (lv : Bool) (st st' : BuilderState) (v : JSValue)
    (h1 : st'.rootTypeName = st.rootTypeName)
    (h2 : st'.rootValidators = st.rootValidators)
    (h3 : st'.suppressAll = st.suppressAll)
    (h4 : st'.suppressedProps = st.suppressedProps)
    (hne : (jsOwnEntries v).isEmpty = false)
    (hagree : ∀ e ∈ jsOwnEntries v, mapGet st'.validators e.1 = mapGet st.validators e.1) :
    evalGuardProps lv st' v = evalGuardProps lv st v := by
  simp only [evalGuardProps]
  rw [h1, h2, h3, h4,
    evalProps_congr lv st.rootTypeName st'.validators st.validators
      (!st.rootValidators.isEmpty) st.suppressAll st.suppressedProps (jsOwnEntries v) hagree,
    hne]
  simp

theorem evalGuardChecked_eq_of (lv : Bool) (st st' : BuilderState) (v : JSValue)
    (h1 : st'.rootTypeName = st.rootTypeName)
    (h2 : st'.rootValidators = st.rootValidators)
    (h3 : st'.suppressAll = st.suppressAll)
    (h4 : st'.suppressedProps = st.suppressedProps)
    (hne : (jsOwnEntries v).isEmpty = false)
    (hagree : ∀ e ∈ jsOwnEntries v, mapGet st'.validators e.1 = mapGet st.validators e.1) :
    evalGuardChecked lv st' v = evalGuardChecked lv st v := by
  unfold evalGuardChecked
  rw [h1, h2, evalGuardProps_eq_of lv st st' v h1 h2 h3 h4 hne hagree]

theorem buildTypeGuard_obj_fail (lv : Bool) (st : BuilderState)
    (fields : List (String × JSValue)) (out : List Diag)
    (hroot : st.rootValidators.all (fun r => r (JSValue.vobj fields)) = true)
    (hev : evalProps lv st.rootTypeName st.validators (!st.rootValidators.isEmpty)
      st.suppressAll st.suppressedProps fields = (false, out)) :
    buildTypeGuard lv st (JSValue.vobj fields) = (false, out) := by
  rw [buildTypeGuard_vobj, evalGuardChecked_root_pass _ _ _ hroot]
  simp only [evalGuardProps, jsOwnEntries]
  rw [hev]
  simp

theorem buildTypeGuard_obj_pass (lv : Bool) (st : BuilderState)
    (fields : List (String × JSValue)) (out : List Diag)
    (hroot : st.rootValidators.all (fun r => r (JSValue.vobj fields)) = true)
    (hev : evalProps lv st.rootTypeName st.validators (!st.rootValidators.isEmpty)
      st.suppressAll st.suppressedProps fields = (true, out))
    (hne : fields.isEmpty = false) :
    buildTypeGuard lv st (JSValue.vobj fields) = (true, out) := by
  rw [buildTypeGuard_vobj, evalGuardChecked_root_pass _ _ _ hroot]
  simp only [evalGuardProps, jsOwnEntries]
  rw [hev, hne]
  simp

theorem buildTypeGuard_obj_snd (lv : Bool) (st : BuilderState)
    (fields : List (String × JSValue))
    (hroot : st.rootValidators.all (fun r => r (JSValue.vobj fields)) = true) :
    (buildTypeGuard lv st (JSValue.vobj fields)).2
      = (evalProps lv st.rootTypeName st.validators (!st.rootValidators.isEmpty)
          st.suppressAll st.suppressedProps fields).2 := by
  rw [buildTypeGuard_vobj, evalGuardChecked_root_pass _ _ _ hroot]
  simp only [evalGuardProps, jsOwnEntries]
  split
  · rfl
  · split <;> rfl

theorem evalProps_no_missing_of_hasRoot (lv : Bool) (tn : String)
    (V : List (String × List JSPred)) (sAll : Bool) (supp : List String)
    (entries : List (String × JSValue)) :
    ∀ d ∈ (evalProps lv tn V true sAll supp entries).2, isMissingValidatorDiag d = false := by
  induction entries with
  | nil => simp [evalProps]
  | cons e r ihp =>
    obtain ⟨k, value⟩ := e
    cases hGet : mapGet V k with
    | none =>
      simp only [evalProps, hGet, Bool.not_true, Bool.false_and, Bool.and_false]
      intro d hd
      simp only [Bool.false_eq_true, if_false, List.nil_append] at hd
      exact ihp d hd
    | some preds =>
      simp only [evalProps, hGet]
      cases hall : preds.all (fun p => p value) with
      | false => simp [hall, isMissingValidatorDiag]
      | true =>
        simp only [hall, if_true]
        exact ihp

theorem evalProps_nil_validators_hasRoot (lv : Bool) (tn : String)
    (sAll : Bool) (supp : List String) (entries : List (String × JSValue)) :
    evalProps lv tn [] true sAll supp entries = (true, []) := by
  induction entries with
  | nil => rfl
  | cons e r ihp =>
    obtain ⟨k, value⟩ := e
    simp [evalProps, mapGet, List.find?, ihp]

end TypeGuardBuilder

/-- C1, counterexample: finalization does NOT snapshot the registries.  A
guard produced from a fresh builder classifies the object with single key
with value 1 as true, but after a later `validateProperty` call on the same
builder the very same guard classifies the same input as false, because the
closure reads the mutated registries. -/
theorem c1_snapshot_counterexample :
    (TypeGuardBuilder.buildTypeGuard true (TypeGuardBuilder.start "T")
      (JSValue.vobj [("a", JSValue.vnum 1)])).1 = true
    ∧ (TypeGuardBuilder.buildTypeGuard true
        (TypeGuardBuilder.validateProperty (TypeGuardBuilder.start "T") "a" alwaysFalsePred)
        (JSValue.vobj [("a", JSValue.vnum 1)])).1 = false :=
  ⟨rfl, rfl⟩

/-- C1, amended: the produced guard reads the builder's registries at
invocation time, so a later `validateProperty` call CAN change its
classification; it leaves both the classification and the diagnostics
unchanged exactly on the object inputs that have at least one own key and
do not mention the re-registered key. -/
theorem c1_later_registration_frame (lv : Bool) (st : BuilderState) (k : String) (p : JSPred)
    (fields : List (String × JSValue))
    (hne : fields.isEmpty = false)
    (hk : fields.all (fun e => !(e.1 == k)) = true) :
    TypeGuardBuilder.buildTypeGuard lv (TypeGuardBuilder.validateProperty st k p)
        (JSValue.vobj fields)
      = TypeGuardBuilder.buildTypeGuard lv st (JSValue.vobj fields) := by
  rw [TypeGuardBuilder.buildTypeGuard_vobj, TypeGuardBuilder.buildTypeGuard_vobj]
  apply TypeGuardBuilder.evalGuardChecked_eq_of lv st
    (TypeGuardBuilder.validateProperty st k p) (JSValue.vobj fields) rfl rfl rfl rfl hne
  intro e he
  have hef : e ∈ fields := he
  have hne' : e.1 ≠ k := by
    have h1 := List.all_eq_true.mp hk e hef
    simpa using h1
  exact mapGet_mapSet_ne st.validators k e.1 _ hne'

/-- C1, witness for the amended frame property at a concrete builder. -/
theorem c1_later_registration_frame_witness :
    TypeGuardBuilder.buildTypeGuard true
        (TypeGuardBuilder.validateProperty
          (TypeGuardBuilder.validateProperty (TypeGuardBuilder.start "T") "a"
            CommonTypeGuards.basics.string)
          "b" alwaysFalsePred)
        (JSValue.vobj [("a", JSValue.vstr "x")])
      = TypeGuardBuilder.buildTypeGuard true
          (TypeGuardBuilder.validateProperty (TypeGuardBuilder.start "T") "a"
            CommonTypeGuards.basics.string)
          (JSValue.vobj [("a", JSValue.vstr "x")]) :=
  c1_later_registration_frame true
    (TypeGuardBuilder.validateProperty (TypeGuardBuilder.start "T") "a"
      CommonTypeGuards.basics.string)
    "b" alwaysFalsePred [("a", JSValue.vstr "x")] rfl rfl

/-- C2, counterexample: the claim's clause that the nullable variant agrees
with the base guard on every non-sentinel input fails for the object guard:
with sentinel set containing only undefined, the nullable variant rejects
null while the base object guard accepts null. -/
theorem c2_nullable_fallback_counterexample :
    CommonTypeGuards.makeNullableFunction CommonTypeGuards.basics.object
        [JSValue.vundefined] JSValue.vnull = false
    ∧ CommonTypeGuards.basics.object JSValue.vnull = true :=
  ⟨rfl, rfl⟩

/-- C2, amended: every sentinel of S is accepted (for empty S the default
pair null/undefined is accepted); on values that are neither null nor
undefined the nullable variant agrees with the base guard; but null and
undefined outside a non-empty S are rejected outright, regardless of the
base guard. -/
theorem c2_nullable_semantics (base : JSPred) (S : List JSValue)
    (hS : ∀ s ∈ S, s = JSValue.vnull ∨ s = JSValue.vundefined) :
    (∀ s ∈ S, CommonTypeGuards.makeNullableFunction base S s = true)
    ∧ (S = [] → CommonTypeGuards.makeNullableFunction base S JSValue.vnull = true
        ∧ CommonTypeGuards.makeNullableFunction base S JSValue.vundefined = true)
    ∧ (∀ x, x ≠ JSValue.vnull → x ≠ JSValue.vundefined →
        CommonTypeGuards.makeNullableFunction base S x = base x)
    ∧ (∀ x, x ∉ S → S ≠ [] → (x = JSValue.vnull ∨ x = JSValue.vundefined) →
        CommonTypeGuards.makeNullableFunction base S x = false) := by
  refine ⟨fun s hs => ?_, fun hSe => ?_, fun x hx1 hx2 => ?_, fun x hxS hSne hx => ?_⟩
  · have hne : S.isEmpty = false := by
      cases S with
      | nil => simp at hs
      | cons a t => rfl
    rcases hS s hs with h | h <;> subst h <;>
      simp [CommonTypeGuards.makeNullableFunction, CommonTypeGuards.nullish, hne, hs]
  · subst hSe
    exact ⟨rfl, rfl⟩
  · simp [CommonTypeGuards.makeNullableFunction, hx1, hx2]
  · have hne : S.isEmpty = false := by
      cases S with
      | nil => exact absurd rfl hSne
      | cons a t => rfl
    rcases hx with h | h <;> subst h <;>
      simp [CommonTypeGuards.makeNullableFunction, CommonTypeGuards.nullish, hne, hxS]

/-- C2, witness for the amended nullable semantics at the string guard with
sentinel set containing only null. -/
theorem c2_nullable_semantics_witness :
    CommonTypeGuards.makeNullableFunction CommonTypeGuards.basics.string
        [JSValue.vnull] JSValue.vnull = true
    ∧ CommonTypeGuards.makeNullableFunction CommonTypeGuards.basics.string
        [JSValue.vnull] (JSValue.vstr "a")
        = CommonTypeGuards.basics.string (JSValue.vstr "a")
    ∧ CommonTypeGuards.makeNullableFunction CommonTypeGuards.basics.string
        [JSValue.vnull] JSValue.vundefined = false := by
  have h := c2_nullable_semantics CommonTypeGuards.basics.string [JSValue.vnull]
    (by intro s hs; simp at hs; subst hs; exact Or.inl rfl)
  exact ⟨h.1 _ (by simp), h.2.2.1 _ (by simp) (by simp),
    h.2.2.2 _ (by decide) (by simp) (Or.inr rfl)⟩

/-- C3: the claim says a produced guard never throws regardless of the
registered predicates, and the build docstring promises the same; but
buildTypeGuard contains no try/catch, so a registered predicate that throws
propagates its exception out of the guard instead of yielding false.  This
theorem evaluates the faithful exception-aware embedding at the failing
input. -/
theorem c3_guard_propagates_predicate_exception :
    TypeGuardBuilder.buildTypeGuardE true c3ThrowState (JSValue.vobj [("a", JSValue.vnum 1)])
      = Except.error "predicate threw" := rfl

/-- C4: with all earlier observed keys passing and the root validators
passing, a first failing property P1 makes evaluation return false with the
pre-P1 missing-validator warnings plus exactly P1's validation-failure
diagnostic and nothing else; and the predicates registered for a later key
P2 are never consulted: replacing P2's predicate sequence by anything leaves
the outcome identical. -/
theorem c4_property_short_circuit (lv : Bool) (st : BuilderState)
    (pre rest : List (String × JSValue)) (k1 k2 : String) (x1 x2 : JSValue)
    (ps1 ps2 ps2' : List JSPred)
    (hroot : st.rootValidators.all (fun r => r (JSValue.vobj (pre ++ (k1, x1) :: rest))) = true)
    (hpre : TypeGuardBuilder.propsPassB st.validators pre = true)
    (h1 : mapGet st.validators k1 = some ps1)
    (hfail : ps1.all (fun p => p x1) = false)
    (_h2mem : (k2, x2) ∈ rest)
    (_h2 : mapGet st.validators k2 = some ps2)
    (_h2fail : ps2.all (fun p => p x2) = false)
    (hk2pre : pre.all (fun e => !(e.1 == k2)) = true)
    (hk21 : (k1 == k2) = false) :
    (TypeGuardBuilder.buildTypeGuard lv st (JSValue.vobj (pre ++ (k1, x1) :: rest))).1 = false
    ∧ (TypeGuardBuilder.buildTypeGuard lv st (JSValue.vobj (pre ++ (k1, x1) :: rest))).2
        = TypeGuardBuilder.missingDiags st.rootTypeName st.validators
            (!st.rootValidators.isEmpty) st.suppressAll st.suppressedProps pre
          ++ [Diag.propFailure st.rootTypeName k1 (sanitise lv x1)]
    ∧ TypeGuardBuilder.buildTypeGuard lv
          { st with validators := mapSet st.validators k2 ps2' }
          (JSValue.vobj (pre ++ (k1, x1) :: rest))
        = TypeGuardBuilder.buildTypeGuard lv st (JSValue.vobj (pre ++ (k1, x1) :: rest)) := by
  have hev := TypeGuardBuilder.evalProps_fail_at lv st.rootTypeName st.validators
    (!st.rootValidators.isEmpty) st.suppressAll st.suppressedProps pre rest k1 x1 ps1
    hpre h1 hfail
  have hbuild := TypeGuardBuilder.buildTypeGuard_obj_fail lv st (pre ++ (k1, x1) :: rest) _
    hroot hev
  have hk21' : k1 ≠ k2 := by simpa using hk21
  have hagree : ∀ e ∈ pre, mapGet (mapSet st.validators k2 ps2') e.1 = mapGet st.validators e.1 := by
    intro e he
    refine mapGet_mapSet_ne _ _ _ _ ?_
    have h3 := List.all_eq_true.mp hk2pre e he
    simpa using h3
  have hpre' : TypeGuardBuilder.propsPassB (mapSet st.validators k2 ps2') pre = true := by
    rw [TypeGuardBuilder.propsPassB_congr _ _ _ hagree]
    exact hpre
  have h1' : mapGet (mapSet st.validators k2 ps2') k1 = some ps1 := by
    rw [mapGet_mapSet_ne _ _ _ _ hk21']
    exact h1
  have hev' := TypeGuardBuilder.evalProps_fail_at lv st.rootTypeName
    (mapSet st.validators k2 ps2') (!st.rootValidators.isEmpty) st.suppressAll
    st.suppressedProps pre rest k1 x1 ps1 hpre' h1' hfail
  have hbuild' := TypeGuardBuilder.buildTypeGuard_obj_fail lv
    { st with validators := mapSet st.validators k2 ps2' } (pre ++ (k1, x1) :: rest) _
    hroot hev'
  refine ⟨?_, ?_, ?_⟩
  · rw [hbuild]
  · rw [hbuild]
  · rw [hbuild, hbuild']
    rw [TypeGuardBuilder.missingDiags_congr st.rootTypeName
      (mapSet st.validators k2 ps2') st.validators (!st.rootValidators.isEmpty)
      st.suppressAll st.suppressedProps pre hagree]

/-- C4, witness: builder failing on p1 then p2, input containing both keys;
the guard fails and replacing p2's predicates changes nothing. -/
theorem c4_property_short_circuit_witness :
    (TypeGuardBuilder.buildTypeGuard true
      (TypeGuardBuilder.validateProperty
        (TypeGuardBuilder.validateProperty (TypeGuardBuilder.start "T") "p1" alwaysFalsePred)
        "p2" alwaysFalsePred)
      (JSValue.vobj [("p1", JSValue.vnum 1), ("p2", JSValue.vnum 2)])).1 = false
    ∧ TypeGuardBuilder.buildTypeGuard true
        { TypeGuardBuilder.validateProperty
            (TypeGuardBuilder.validateProperty (TypeGuardBuilder.start "T") "p1" alwaysFalsePred)
            "p2" alwaysFalsePred with
          validators := mapSet (TypeGuardBuilder.validateProperty
            (TypeGuardBuilder.validateProperty (TypeGuardBuilder.start "T") "p1" alwaysFalsePred)
            "p2" alwaysFalsePred).validators "p2" [alwaysTruePred] }
        (JSValue.vobj [("p1", JSValue.vnum 1), ("p2", JSValue.vnum 2)])
      = TypeGuardBuilder.buildTypeGuard true
          (TypeGuardBuilder.validateProperty
            (TypeGuardBuilder.validateProperty (TypeGuardBuilder.start "T") "p1" alwaysFalsePred)
            "p2" alwaysFalsePred)
          (JSValue.vobj [("p1", JSValue.vnum 1), ("p2", JSValue.vnum 2)]) := by
  have h := c4_property_short_circuit true
    (TypeGuardBuilder.validateProperty
      (TypeGuardBuilder.validateProperty (TypeGuardBuilder.start "T") "p1" alwaysFalsePred)
      "p2" alwaysFalsePred)
    [] [("p2", JSValue.vnum 2)] "p1" "p2" (JSValue.vnum 1) (JSValue.vnum 2)
    [alwaysFalsePred] [alwaysFalsePred] [alwaysTruePred]
    rfl rfl rfl rfl (List.mem_singleton.mpr rfl) rfl rfl rfl rfl
  exact ⟨h.1, h.2.2⟩

/-- C5: a guard from a builder with no root validator and a non-empty
property registry classifies the empty object as false (and emits no
diagnostics there). -/
theorem c5_empty_object_rejected (lv : Bool) (st : BuilderState)
    (hroot : st.rootValidators.isEmpty = true)
    (hvals : st.validators.isEmpty = false) :
    TypeGuardBuilder.buildTypeGuard lv st (JSValue.vobj []) = (false, []) := by
  have hroot' : st.rootValidators = [] := by
    cases h : st.rootValidators with
    | nil => rfl
    | cons a t => rw [h] at hroot; simp at hroot
  rw [TypeGuardBuilder.buildTypeGuard_vobj,
    TypeGuardBuilder.evalGuardChecked_root_pass lv st _ (by rw [hroot']; rfl)]
  simp only [TypeGuardBuilder.evalGuardProps, jsOwnEntries]
  rw [hroot']
  simp [TypeGuardBuilder.evalProps, hvals]

/-- C5, witness at a concrete one-property builder. -/
theorem c5_empty_object_rejected_witness :
    TypeGuardBuilder.buildTypeGuard true
        (TypeGuardBuilder.validateProperty (TypeGuardBuilder.start "T") "a"
          CommonTypeGuards.basics.string)
        (JSValue.vobj []) = (false, []) :=
  c5_empty_object_rejected true
    (TypeGuardBuilder.validateProperty (TypeGuardBuilder.start "T") "a"
      CommonTypeGuards.basics.string) rfl rfl

/-- C6: properties entirely absent from the input are not detected.  If the
root validators pass, the input object has at least one own key, and every
registered predicate sequence consulted for the keys actually present
passes, the guard returns true, no matter which other registered properties
are absent. -/
theorem c6_absent_property_not_detected (lv : Bool) (st : BuilderState)
    (fields : List (String × JSValue))
    (hne : fields.isEmpty = false)
    (hroot : st.rootValidators.all (fun r => r (JSValue.vobj fields)) = true)
    (hpass : TypeGuardBuilder.propsPassB st.validators fields = true) :
    (TypeGuardBuilder.buildTypeGuard lv st (JSValue.vobj fields)).1 = true := by
  have hev := TypeGuardBuilder.evalProps_all_pass lv st.rootTypeName st.validators
    (!st.rootValidators.isEmpty) st.suppressAll st.suppressedProps fields hpass
  rw [TypeGuardBuilder.buildTypeGuard_obj_pass lv st fields _ hroot hev hne]

/-- C6, witness: the claim's example, schema with a string property a and
number property b, validated against an object with only the key a. -/
theorem c6_absent_property_not_detected_witness :
    (TypeGuardBuilder.buildTypeGuard true
      (TypeGuardBuilder.validateProperty
        (TypeGuardBuilder.validateProperty (TypeGuardBuilder.start "T") "a"
          CommonTypeGuards.basics.string)
        "b" CommonTypeGuards.basics.number)
      (JSValue.vobj [("a", JSValue.vstr "x")])).1 = true :=
  c6_absent_property_not_detected true
    (TypeGuardBuilder.validateProperty
      (TypeGuardBuilder.validateProperty (TypeGuardBuilder.start "T") "a"
        CommonTypeGuards.basics.string)
      "b" CommonTypeGuards.basics.number)
    [("a", JSValue.vstr "x")] rfl rfl rfl

/-- C7: when at least one root validator is registered and they all accept
the input object, no missing-validator diagnostic is ever emitted, for any
observed key; when additionally no property validator is registered at all
(the spec's scenario of extra unregistered input properties), evaluation
returns true with zero diagnostics. -/
theorem c7_root_validator_suppresses_missing_diags (lv : Bool) (st : BuilderState)
    (fields : List (String × JSValue))
    (hroot : st.rootValidators.isEmpty = false)
    (hpass : st.rootValidators.all (fun r => r (JSValue.vobj fields)) = true) :
    (∀ d ∈ (TypeGuardBuilder.buildTypeGuard lv st (JSValue.vobj fields)).2,
      isMissingValidatorDiag d = false)
    ∧ (st.validators.isEmpty = true →
        TypeGuardBuilder.buildTypeGuard lv st (JSValue.vobj fields) = (true, [])) := by
  have hhr : (!st.rootValidators.isEmpty) = true := by rw [hroot]; rfl
  constructor
  · intro d hd
    rw [TypeGuardBuilder.buildTypeGuard_obj_snd lv st fields hpass, hhr] at hd
    exact TypeGuardBuilder.evalProps_no_missing_of_hasRoot lv st.rootTypeName st.validators
      st.suppressAll st.suppressedProps fields d hd
  · intro hv
    have hv' : st.validators = [] := by
      cases hvv : st.validators with
      | nil => rfl
      | cons a t => rw [hvv] at hv; simp at hv
    rw [TypeGuardBuilder.buildTypeGuard_vobj,
      TypeGuardBuilder.evalGuardChecked_root_pass _ _ _ hpass]
    simp only [TypeGuardBuilder.evalGuardProps, jsOwnEntries]
    rw [hv', hhr, TypeGuardBuilder.evalProps_nil_validators_hasRoot]
    simp

/-- C7, witness: root validator accepting everything plus an extra
unregistered input property gives true with zero diagnostics. -/
theorem c7_root_validator_suppresses_missing_diags_witness :
    TypeGuardBuilder.buildTypeGuard true
        (TypeGuardBuilder.validateRoot (TypeGuardBuilder.start "T") alwaysTruePred)
        (JSValue.vobj [("extra", JSValue.vnum 1)]) = (true, []) :=
  (c7_root_validator_suppresses_missing_diags true
    (TypeGuardBuilder.validateRoot (TypeGuardBuilder.start "T") alwaysTruePred)
    [("extra", JSValue.vnum 1)] rfl rfl).2 rfl

/-- C8: the two enum predicates check different sets, on the enum with keys
Red and Green and values red and green: member-of accepts the value red and
rejects the key name Red, while key-of accepts Red and rejects red.  The
key-of predicate is modelled from the spec because its implementation is
not under src. -/
theorem c8_enum_member_vs_key :
    CommonTypeGuards.enums.memberOf colourEnum (JSValue.vstr "red") = true
    ∧ CommonTypeGuards.enums.memberOf colourEnum (JSValue.vstr "Red") = false
    ∧ CommonTypeGuards.enums.keyOf colourEnum (JSValue.vstr "Red") = true
    ∧ CommonTypeGuards.enums.keyOf colourEnum (JSValue.vstr "red") = false :=
  ⟨rfl, rfl, rfl, rfl⟩

/-- C9: array-of(g) accepts exactly the arrays all of whose elements satisfy
g (so the empty array is accepted), and on any element failure it returns
false with the single generic index-free member-failure diagnostic. -/
theorem c9_array_of_spec (g : JSPred) (v : JSValue) :
    ((CommonTypeGuards.arrayOf g v).1 = true ↔
      ∃ es, v = JSValue.varr es ∧ es.all g = true)
    ∧ (∀ es, v = JSValue.varr es → es.all g = false →
        CommonTypeGuards.arrayOf g v = (false, [Diag.arrayMemberFailure])) := by
  constructor
  · constructor
    · intro h
      cases v with
      | varr es =>
        refine ⟨es, rfl, ?_⟩
        simpa [CommonTypeGuards.arrayOf] using h
      | vnull => simp [CommonTypeGuards.arrayOf] at h
      | vundefined => simp [CommonTypeGuards.arrayOf] at h
      | vbool b => simp [CommonTypeGuards.arrayOf] at h
      | vnum n => simp [CommonTypeGuards.arrayOf] at h
      | vstr s => simp [CommonTypeGuards.arrayOf] at h
      | vobj f => simp [CommonTypeGuards.arrayOf] at h
    · rintro ⟨es, rfl, hall⟩
      simp [CommonTypeGuards.arrayOf, hall]
  · intro es hv hfail
    subst hv
    simp [CommonTypeGuards.arrayOf, hfail]

/-- C9, witness: the claim's two examples for the string element guard. -/
theorem c9_array_of_spec_witness :
    CommonTypeGuards.arrayOf CommonTypeGuards.basics.string
        (JSValue.varr [JSValue.vstr "a", JSValue.vnum 1])
      = (false, [Diag.arrayMemberFailure])
    ∧ (CommonTypeGuards.arrayOf CommonTypeGuards.basics.string (JSValue.varr [])).1 = true :=
  ⟨(c9_array_of_spec CommonTypeGuards.basics.string _).2
      [JSValue.vstr "a", JSValue.vnum 1] rfl rfl,
   (c9_array_of_spec CommonTypeGuards.basics.string _).1.mpr ⟨[], rfl, rfl⟩⟩

/-- C10: the base object guard is the bare typeof tag check, so it accepts
null and arrays; its nullable variant with sentinel set of only undefined
rejects null even though the base guard accepts it; and every
builder-produced guard rejects null. -/
theorem c10_object_guard_accepts_null_and_arrays :
    CommonTypeGuards.basics.object JSValue.vnull = true
    ∧ CommonTypeGuards.basics.object (JSValue.varr []) = true
    ∧ CommonTypeGuards.makeNullableFunction CommonTypeGuards.basics.object
        [JSValue.vundefined] JSValue.vnull = false
    ∧ (∀ (lv : Bool) (st : BuilderState),
        (TypeGuardBuilder.buildTypeGuard lv st JSValue.vnull).1 = false) :=
  ⟨rfl, rfl, rfl, fun _ _ => rfl⟩
